import Mathlib

/-!
Verification of the sprintgates time-synchronization and race-windowing
engine. Milliseconds are modelled as exact rationals. Each definition is a
shallow embedding of the corresponding function of the source; names follow
the source where Lean allows it.
-/

namespace SprintGates

/-! ## Drift-correction configuration (RaceProvider, DRIFT_CORRECTION_CONFIG) -/

def SAMPLES_PER_SYNC : Nat := 5

def SMOOTHING_FACTOR : ℚ := 3 / 10

def MAX_CORRECTION_MS : ℚ := 50

def OUTLIER_THRESHOLD_MS : ℚ := 200

/-- One round trip against the reference time source: `start`/`finish` are the
local monotonic clock readings around the probe and `serverTime` the reference
time it returned. -/
structure Probe where
  start : ℚ
  serverTime : ℚ
  finish : ℚ
deriving DecidableEq

/-- `rtt = end - start` of the source. -/
def Probe.rtt (p : Probe) : ℚ := p.finish - p.start

/-- The per-sample offset estimate: `latency = rtt / 2`,
`predictedServerTime = serverTime + latency`, `sampleOffset =
predictedServerTime - end`. The startup burst computes the same expression. -/
def Probe.sampleOffset (p : Probe) : ℚ := (p.serverTime + p.rtt / 2) - p.finish

/-- The samples a sync cycle keeps: the probe loop pushes a sample only when
`rtt < OUTLIER_THRESHOLD_MS`. -/
def survivingSamples (probes : List Probe) : List Probe :=
  probes.filter fun p => p.rtt < OUTLIER_THRESHOLD_MS

/-- `samples.sort((a, b) => a.rtt - b.rtt)` of the source: a stable sort by
round-trip time (insertion sort is stable, like the JavaScript sort). -/
def sortByRtt (samples : List Probe) : List Probe :=
  List.insertionSort (fun a b => a.rtt ≤ b.rtt) samples

/-- `performDriftSync` (RaceProvider): filter outliers, take the
lowest-RTT sample, clamp the raw correction to ±MAX_CORRECTION_MS and apply
EMA smoothing with α = SMOOTHING_FACTOR; with no surviving sample the cycle
returns the current offset unchanged. -/
def performDriftSync (probes : List Probe) (currentOffset : ℚ) : ℚ :=
  match sortByRtt (survivingSamples probes) with
  | [] => currentOffset
  | best :: _ =>
    let rawCorrection := best.sampleOffset - currentOffset
    let clampedCorrection :=
      max (-MAX_CORRECTION_MS) (min MAX_CORRECTION_MS rawCorrection)
    currentOffset + clampedCorrection * SMOOTHING_FACTOR

/-- A probe attempt that may fail with a transient network error. -/
abbrev ProbeResult := Except Unit Probe

/-- The sample-collection loop of `performDriftSync` under failures: the whole
loop sits inside one `try`, so the first probe that throws ends collection
(the probes after it are never taken). -/
def collectProbes : List ProbeResult → Except Unit (List Probe)
  | [] => Except.ok []
  | Except.error e :: _ => Except.error e
  | Except.ok p :: rest => (collectProbes rest).map fun l => p :: l

/-- `performDriftSync` including its `try`/`catch`: a thrown probe error is
caught at cycle level and the cycle returns the current offset unchanged. -/
def performDriftSyncE (probes : List ProbeResult) (currentOffset : ℚ) : ℚ :=
  match collectProbes probes with
  | Except.error _ => currentOffset
  | Except.ok ps => performDriftSync ps currentOffset

/-- The startup sync burst (RaceProvider connected-handler): `burstCount = 5`
probes, `initialOffset = totalOffset / burstCount` where each probe
contributes `predictedServerTime - end`, with no smoothing or clamping. -/
def startupOffset (probes : List Probe) : ℚ :=
  (probes.map Probe.sampleOffset).sum / 5

/-- The spec's per-sample estimate, written from its words:
`estimatedOffset = referenceTime + roundTripTime/2 - localReceiveTime`. -/
def estimatedOffsetSpec (referenceTime roundTripTime localReceiveTime : ℚ) : ℚ :=
  referenceTime + roundTripTime / 2 - localReceiveTime

/-! ## Calibration snapshot and the calibration offset effect -/

/-- The fields of `CalibrationStats` the claims touch. -/
structure CalibStats where
  isCalibrated : Bool
  networkOffset : ℚ
  systemLag : ℚ
  frameDuration : ℚ
deriving DecidableEq

/-- The RaceProvider effect on `calibrationStats`: when a calibration is
published (`isCalibrated`), the shared offset is replaced outright by
`calibrationStats.networkOffset` (`setOffset(calibrationStats.networkOffset)`),
with no clamping against the previous offset. -/
def applyCalibrationOffset (currentOffset : ℚ) (c : CalibStats) : ℚ :=
  if c.isCalibrated then c.networkOffset else currentOffset

/-! ## Event timestamp compensation (triggerGate, RaceProvider) -/

/-- The source of a gate event. -/
inductive GateSource where
  | manual
  | motion
deriving DecidableEq

/-- `triggerGate` (RaceProvider): the unified timestamp published on the gate
event. `cameraLatency` is `none` for a JavaScript `undefined` or `null`
metadata field; the `processingLatency` test is JavaScript truthiness, so a
present value of 0 takes the skip branch (numerically the same as
subtracting 0). -/
def triggerGate (now offset : ℚ) (c : CalibStats) (source : GateSource)
    (cameraLatency processingLatency : Option ℚ) : ℚ :=
  let unifiedTime := now + offset
  if c.isCalibrated then
    let u1 := unifiedTime - c.systemLag
    if source = GateSource.motion then
      let u2 :=
        match cameraLatency with
        | some cl => u1 - cl
        | none => if 0 < c.frameDuration then u1 - c.frameDuration / 2 else u1
      match processingLatency with
      | some pl => if pl = 0 then u2 else u2 - pl
      | none => u2
    else u1
  else
    if source = GateSource.motion then
      let u1 :=
        match cameraLatency with
        | some cl => unifiedTime - cl
        | none => unifiedTime
      match processingLatency with
      | some pl => if pl = 0 then u1 else u1 - pl
      | none => u1
    else unifiedTime

/-- The Event Timestamp Compensator written from the spec's pseudocode:
`unified = now + offset`; if calibrated subtract `systemLag`, and for motion
events subtract `cameraLatency` when present else `frameDuration/2` when
`frameDuration > 0`, then subtract `processingLatency` when present; if
uncalibrated and motion, subtract `cameraLatency` when present and
`processingLatency` when present. -/
def triggerGateSpec (now offset : ℚ) (c : CalibStats) (source : GateSource)
    (cameraLatency processingLatency : Option ℚ) : ℚ :=
  let unified := now + offset
  if c.isCalibrated then
    let u1 := unified - c.systemLag
    if source = GateSource.motion then
      let u2 :=
        match cameraLatency with
        | some cl => u1 - cl
        | none => if 0 < c.frameDuration then u1 - c.frameDuration / 2 else u1
      match processingLatency with
      | some pl => u2 - pl
      | none => u2
    else u1
  else
    if source = GateSource.motion then
      let u1 :=
        match cameraLatency with
        | some cl => unified - cl
        | none => unified
      match processingLatency with
      | some pl => u1 - pl
      | none => u1
    else unified

/-! ## Motion Trigger Detector (MotionGate.handleMotion) -/

/-- One `handleMotion` call: given the armed flag, sensitivity, the
`lastTrigger` state and a frame delta at local time `now`, returns the new
`lastTrigger` state and whether a trigger was emitted. The source fires when
armed, `delta > sensitivity` and `now - lastTrigger > 2000`. -/
def motionStep (armed : Bool) (sensitivity last now delta : ℚ) : ℚ × Bool :=
  if armed = true ∧ sensitivity < delta ∧ 2000 < now - last then (now, true)
  else (last, false)

/-- A run of `handleMotion` over a trace of (local time, delta) frames from a
given `lastTrigger` state, returning the local times of the emitted triggers.
The component initialises `lastTrigger` to 0. -/
def motionRun (armed : Bool) (sensitivity : ℚ) : ℚ → List (ℚ × ℚ) → List ℚ
  | _, [] => []
  | last, (now, delta) :: rest =>
    if (motionStep armed sensitivity last now delta).2 then
      now :: motionRun armed sensitivity (motionStep armed sensitivity last now delta).1 rest
    else
      motionRun armed sensitivity (motionStep armed sensitivity last now delta).1 rest

/-! ## Race windowing (SprintList) -/

/-- A stored gate event (`RaceEvent` of the source). -/
structure REvent where
  timestamp : ℚ
  source : GateSource
deriving DecidableEq

/-- The sort on read: `[...recentEvents].sort((a, b) => a.timestamp -
b.timestamp)`, a stable sort by timestamp ascending (insertion sort is
stable, like the JavaScript sort). -/
def sortEvents (l : List REvent) : List REvent :=
  List.insertionSort (fun a b => a.timestamp ≤ b.timestamp) l

instance : IsTotal REvent fun a b => a.timestamp ≤ b.timestamp :=
  ⟨fun a b => le_total a.timestamp b.timestamp⟩

instance : IsTrans REvent fun a b => a.timestamp ≤ b.timestamp :=
  ⟨fun _ _ _ hab hbc => le_trans hab hbc⟩

/-- A derived race window: its events and its `complete` flag. -/
structure Race where
  events : List REvent
  complete : Bool
deriving DecidableEq

/-- The chunking loop of `SprintList`: push each sorted event onto
`currentChunk`, emit a complete chunk whenever it reaches `gateConfig`
length, and a final incomplete chunk when events remain. -/
def chunkGo (g : Nat) (cur : List REvent) : List REvent → List Race
  | [] => if cur.isEmpty then [] else [⟨cur, false⟩]
  | e :: rest =>
    if (cur ++ [e]).length = g then ⟨cur ++ [e], true⟩ :: chunkGo g [] rest
    else chunkGo g (cur ++ [e]) rest

/-- The chronological race windows `SprintList` derives from the event log. -/
def deriveRaces (g : Nat) (events : List REvent) : List Race :=
  chunkGo g [] (sortEvents events)

/-- The displayed list (`chunks.reverse()`, newest first). -/
def sprintsView (g : Nat) (events : List REvent) : List Race :=
  (deriveRaces g events).reverse

/-- Windowing written from the spec's words: the events sorted by timestamp
ascending, sliced into consecutive chunks of size `g`, with a trailing
remainder shorter than `g` as the single in-progress race. -/
def sliceSpec (g : Nat) : List REvent → List Race
  | [] => []
  | e :: rest =>
    if h : 1 ≤ g ∧ g ≤ (e :: rest).length then
      ⟨(e :: rest).take g, true⟩ :: sliceSpec g ((e :: rest).drop g)
    else [⟨e :: rest, false⟩]
termination_by l => l.length
decreasing_by
  simp only [List.length_drop, List.length_cons]
  omega

/-- The 7 events of the spec's example, at timestamps 1..7, in scrambled
arrival order. -/
def exEvents : List REvent :=
  [⟨4, GateSource.manual⟩, ⟨1, GateSource.motion⟩, ⟨7, GateSource.manual⟩,
   ⟨3, GateSource.manual⟩, ⟨2, GateSource.motion⟩, ⟨6, GateSource.manual⟩,
   ⟨5, GateSource.manual⟩]

/-! ## Asymmetric calibration (useSystemCalibration) -/

/-- One 4-timestamp exchange against the time-sync endpoint: `t1` local send,
`t2` server receive, `t3` server response, `t4` local receive, with the
round-trip time measured on the monotonic clock. -/
structure AsymProbe where
  t1 : ℚ
  t2 : ℚ
  t3 : ℚ
  t4 : ℚ
  rtt : ℚ
deriving DecidableEq

/-- NTP-style offset: `((t2 - t1) + (t3 - t4)) / 2`. -/
def AsymProbe.clockOffset (p : AsymProbe) : ℚ :=
  ((p.t2 - p.t1) + (p.t3 - p.t4)) / 2

/-- One-way upload estimate corrected for clock offset. -/
def AsymProbe.uploadEst (p : AsymProbe) : ℚ := (p.t2 - p.t1) - p.clockOffset

/-- One-way download estimate corrected for clock offset. -/
def AsymProbe.downloadEst (p : AsymProbe) : ℚ := (p.t4 - p.t3) + p.clockOffset

/-- The source keeps a sample only when
`uploadEst > 0 && downloadEst > 0 && rtt < 500`. -/
def validAsym (p : AsymProbe) : Bool :=
  decide (0 < p.uploadEst) && decide (0 < p.downloadEst) && decide (p.rtt < 500)

def asymSurvivors (ps : List AsymProbe) : List AsymProbe :=
  ps.filter validAsym

/-- `samples.sort((a, b) => a.rtt - b.rtt)` of the calibration hook. -/
def sortAsymByRtt (samples : List AsymProbe) : List AsymProbe :=
  List.insertionSort (fun a b => a.rtt ≤ b.rtt) samples

/-- The result of `measureAsymmetricLatency` (the jitter standard deviation
is omitted: no claim touches it). -/
structure AsymResult where
  rtt : ℚ
  uploadLatency : ℚ
  downloadLatency : ℚ
  clockOffset : ℚ
deriving DecidableEq

/-- `measureAsymmetricLatency`: keep valid samples; with none, return `null`
(fall back to symmetric); otherwise report the RTT-median sample's offset as
the representative offset and average upload/download estimates over all
survivors. -/
def measureAsymmetricLatency (ps : List AsymProbe) : Option AsymResult :=
  let samples := asymSurvivors ps
  if samples.isEmpty then none
  else
    let sorted := sortAsymByRtt samples
    let medianSample := sorted.getD (samples.length / 2) ⟨0, 0, 0, 0, 0⟩
    some
      { rtt := (samples.map AsymProbe.rtt).sum / (samples.length : ℚ)
        uploadLatency := (samples.map AsymProbe.uploadEst).sum / (samples.length : ℚ)
        downloadLatency := (samples.map AsymProbe.downloadEst).sum / (samples.length : ℚ)
        clockOffset := medianSample.clockOffset }

/-- One Ably round trip of the symmetric fallback (`measureNetworkAbly`):
monotonic readings around the probe plus the wall-clock reading used for the
offset estimate. -/
structure AblyProbe where
  start : ℚ
  serverTime : ℚ
  finish : ℚ
  localTime : ℚ
deriving DecidableEq

def AblyProbe.rtt (p : AblyProbe) : ℚ := p.finish - p.start

/-- `offset = (serverTime - rtt / 2) - localTime` of the fallback. -/
def AblyProbe.offsetEst (p : AblyProbe) : ℚ :=
  (p.serverTime - p.rtt / 2) - p.localTime

/-- `offsets[pings.indexOf(Math.min(...pings))]`: the offset of the first
probe attaining the minimal RTT. -/
def bestOffsetAbly (ps : List AblyProbe) : ℚ :=
  match ps with
  | [] => 0
  | p :: rest =>
    (rest.foldl (fun best q => if q.rtt < best.rtt then q else best) p).offsetEst

/-- The symmetric fallback's network statistics. -/
structure SymResult where
  rtt : ℚ
  uploadLatency : ℚ
  downloadLatency : ℚ
  bestOffset : ℚ
deriving DecidableEq

/-- `measureNetworkAbly`: symmetric assumption, `upload = download =
avgRTT / 2`. -/
def measureNetworkAbly (ps : List AblyProbe) : SymResult :=
  let avgRTT := (ps.map AblyProbe.rtt).sum / (ps.length : ℚ)
  { rtt := avgRTT
    uploadLatency := avgRTT / 2
    downloadLatency := avgRTT / 2
    bestOffset := bestOffsetAbly ps }

/-- The latencies `runCalibration` publishes: the asymmetric result when the
exchange produced one, else the symmetric fallback's. -/
def calibrationLatencies (asym : Option AsymResult) (fallback : List AblyProbe) :
    ℚ × ℚ :=
  match asym with
  | some a => (a.uploadLatency, a.downloadLatency)
  | none =>
    ((measureNetworkAbly fallback).uploadLatency,
     (measureNetworkAbly fallback).downloadLatency)

/-- The network offset `runCalibration` publishes:
`asymmetricStats?.clockOffset ?? 0`. -/
def calibrationNetworkOffset (asym : Option AsymResult) : ℚ :=
  match asym with
  | some a => a.clockOffset
  | none => 0

/-! ## Per-segment velocity and acceleration (SprintCard) -/

/-- `getDistance` of SprintCard: gate 0 is the start at distance 0; gate
`idx ≥ 1` reads `distanceConfig[idx - 1]` through a JavaScript truthiness
test, so a configured 0 (like a missing entry) yields `null`. -/
def getDistance (dc : List ℚ) (idx : Nat) : Option ℚ :=
  if idx = 0 then some 0
  else
    match dc[idx - 1]? with
    | some d => if d = 0 then none else some d
    | none => none

/-- The timestamp of event `i` of a race window. -/
def evTimestamp (evs : List REvent) (i : Nat) : ℚ :=
  (evs.getD i ⟨0, GateSource.manual⟩).timestamp

/-- `timeDelta` of segment `i` in seconds. -/
def timeDelta (evs : List REvent) (i : Nat) : ℚ :=
  (evTimestamp evs i - evTimestamp evs (i - 1)) / 1000

/-- The velocity SprintCard displays for segment `i`: available only when
`i ≥ 1`, both gate distances resolve, and the time delta is positive. -/
def segmentVelocity (dc : List ℚ) (evs : List REvent) (i : Nat) : Option ℚ :=
  if i = 0 then none
  else
    match getDistance dc i, getDistance dc (i - 1) with
    | some currentDist, some prevDist =>
      if 0 < timeDelta evs i then
        some ((currentDist - prevDist) / timeDelta evs i)
      else none
    | _, _ => none

/-- The previous-segment velocity used for acceleration: 0 for the first
segment, else the previous segment's distance difference over its time delta
(JavaScript `null` coerces to 0 in the subtraction, hence `getD 0`). -/
def prevSegmentVelocity (dc : List ℚ) (evs : List REvent) (i : Nat) : ℚ :=
  if 1 < i then
    if 0 < timeDelta evs (i - 1) then
      (((getDistance dc (i - 1)).getD 0) - ((getDistance dc (i - 2)).getD 0))
        / timeDelta evs (i - 1)
    else 0
  else 0

/-- The acceleration SprintCard displays for segment `i`: available exactly
when the velocity is, as `(velocity - prevVelocity) / timeDelta`. -/
def segmentAcceleration (dc : List ℚ) (evs : List REvent) (i : Nat) : Option ℚ :=
  match segmentVelocity dc evs i with
  | none => none
  | some v => some ((v - prevSegmentVelocity dc evs i) / timeDelta evs i)

/-- The race of the spec's velocity example: gate events at 0s, 1.0s, 1.9s
and 2.9s. -/
def raceEx : List REvent :=
  [⟨0, GateSource.manual⟩, ⟨1000, GateSource.manual⟩,
   ⟨1900, GateSource.manual⟩, ⟨2900, GateSource.manual⟩]

/-! ## Theorems: drift correction, startup burst, offset update bounds -/

instance : IsTotal Probe fun a b => a.rtt ≤ b.rtt :=
  ⟨fun a b => le_total a.rtt b.rtt⟩

instance : IsTrans Probe fun a b => a.rtt ≤ b.rtt :=
  ⟨fun _ _ _ hab hbc => le_trans hab hbc⟩

/-- C1: a periodic drift-correction cycle rejects samples whose round-trip
time exceeds the 200ms outlier threshold; with zero surviving samples it
returns the current offset unchanged; otherwise, with `best` the surviving
sample of lowest round-trip time, the new offset is
`currentOffset + clamp(best.offset - currentOffset, -50, 50) * 0.3` (clamp
before α = 0.3 smoothing), so `currentOffset = 0` with best offset sample 80
yields 15. -/
theorem performDriftSync_spec (probes : List Probe) (currentOffset : ℚ)
    (best : Probe) (rest : List Probe)
    (hsort : sortByRtt (survivingSamples probes) = best :: rest) :
    best ∈ survivingSamples probes
    ∧ (∀ q ∈ survivingSamples probes, best.rtt ≤ q.rtt)
    ∧ performDriftSync probes currentOffset =
        currentOffset +
          max (-MAX_CORRECTION_MS)
            (min MAX_CORRECTION_MS (best.sampleOffset - currentOffset)) *
            SMOOTHING_FACTOR
    ∧ (∀ p ∈ probes, OUTLIER_THRESHOLD_MS < p.rtt → p ∉ survivingSamples probes)
    ∧ (∀ (probes2 : List Probe) (cur2 : ℚ), survivingSamples probes2 = [] →
        performDriftSync probes2 cur2 = cur2)
    ∧ performDriftSync [⟨0, 85, 10⟩] 0 = 15 := by
  have hperm : List.Perm (best :: rest) (survivingSamples probes) := by
    rw [← hsort]
    exact List.perm_insertionSort _ _
  have hsorted : List.Sorted (fun a b : Probe => a.rtt ≤ b.rtt) (best :: rest) := by
    rw [← hsort]
    exact List.sorted_insertionSort _ _
  refine ⟨hperm.subset (List.mem_cons_self _ _), ?_, ?_, ?_, ?_, ?_⟩
  · intro q hq
    rcases List.mem_cons.mp (hperm.mem_iff.mpr hq) with h | h
    · rw [h]
    · exact List.rel_of_sorted_cons hsorted q h
  · simp only [performDriftSync, hsort]
  · intro p _ hrtt
    simp only [survivingSamples, List.mem_filter, decide_eq_true_eq, not_and]
    intro _
    simp only [OUTLIER_THRESHOLD_MS] at hrtt ⊢
    linarith
  · intro probes2 cur2 h2
    simp [performDriftSync, sortByRtt, h2]
  · norm_num [performDriftSync, sortByRtt, survivingSamples, Probe.rtt,
      Probe.sampleOffset, OUTLIER_THRESHOLD_MS, MAX_CORRECTION_MS,
      SMOOTHING_FACTOR, List.insertionSort]

/-- Witness for C1 at the concrete one-probe cycle of the claim. -/
theorem performDriftSync_spec_witness :
    (⟨0, 85, 10⟩ : Probe) ∈ survivingSamples [⟨0, 85, 10⟩]
    ∧ performDriftSync [⟨0, 85, 10⟩] 0 = 15 :=
  have h : sortByRtt (survivingSamples [⟨0, 85, 10⟩]) = [⟨0, 85, 10⟩] := by
    norm_num [sortByRtt, survivingSamples, Probe.rtt, OUTLIER_THRESHOLD_MS,
      List.insertionSort]
  ⟨(performDriftSync_spec [⟨0, 85, 10⟩] 0 ⟨0, 85, 10⟩ [] h).1,
   (performDriftSync_spec [⟨0, 85, 10⟩] 0 ⟨0, 85, 10⟩ [] h).2.2.2.2.2⟩

/-- C4: a startup burst of exactly 5 round trips sets the initial offset to
the arithmetic mean of the per-sample estimates
`referenceTime + roundTripTime/2 - localReceiveTime`, with no smoothing or
clamping. -/
theorem startupOffset_mean (probes : List Probe) (h5 : probes.length = 5) :
    startupOffset probes =
      (probes.map fun p => estimatedOffsetSpec p.serverTime p.rtt p.finish).sum
        / (probes.length : ℚ) := by
  have hfun : (fun p : Probe => estimatedOffsetSpec p.serverTime p.rtt p.finish)
      = Probe.sampleOffset := by
    funext p
    simp [estimatedOffsetSpec, Probe.sampleOffset, Probe.rtt]
  rw [hfun, h5, startupOffset]
  norm_num

/-- Witness for C4 at a concrete 5-probe burst. -/
theorem startupOffset_mean_witness :
    startupOffset [⟨0, 10, 2⟩, ⟨0, 20, 4⟩, ⟨0, 30, 6⟩, ⟨0, 40, 8⟩, ⟨0, 50, 10⟩] =
      (([⟨0, 10, 2⟩, ⟨0, 20, 4⟩, ⟨0, 30, 6⟩, ⟨0, 40, 8⟩, ⟨0, 50, 10⟩] :
          List Probe).map fun p =>
            estimatedOffsetSpec p.serverTime p.rtt p.finish).sum
        / (([⟨0, 10, 2⟩, ⟨0, 20, 4⟩, ⟨0, 30, 6⟩, ⟨0, 40, 8⟩, ⟨0, 50, 10⟩] :
          List Probe).length : ℚ) :=
  startupOffset_mean _ (by simp)

/-- C5 (amended): only the periodic drift-sync path is bounded by the clamp —
each drift-sync cycle changes the offset by at most MAX_CORRECTION_MS (50ms)
in magnitude — while the calibration-publishing path replaces the offset
outright with the calibrated networkOffset, not bounded by the clamp. -/
theorem offset_update_bound (probes : List Probe) (currentOffset : ℚ)
    (c : CalibStats) :
    |performDriftSync probes currentOffset - currentOffset| ≤ MAX_CORRECTION_MS
    ∧ applyCalibrationOffset currentOffset c =
        (if c.isCalibrated then c.networkOffset else currentOffset) := by
  constructor
  · unfold performDriftSync
    cases h : sortByRtt (survivingSamples probes) with
    | nil => simp [MAX_CORRECTION_MS]
    | cons best rest =>
      simp only [MAX_CORRECTION_MS, SMOOTHING_FACTOR]
      have h1 : -(50 : ℚ) ≤ max (-(50 : ℚ))
          (min 50 (best.sampleOffset - currentOffset)) := le_max_left _ _
      have h2 : max (-(50 : ℚ)) (min 50 (best.sampleOffset - currentOffset))
          ≤ 50 := max_le (by norm_num) (min_le_left _ _)
      rw [abs_le]
      constructor <;> nlinarith
  · rfl

/-- Counterexample to C5 as stated: a calibration publish with
networkOffset = 1000 moves the offset from 0 to 1000, a jump far beyond the
50ms clamp. -/
theorem offset_update_bound_cex :
    applyCalibrationOffset 0 ⟨true, 1000, 0, 0⟩ = 1000
    ∧ ¬|applyCalibrationOffset 0 ⟨true, 1000, 0, 0⟩ - 0| ≤ MAX_CORRECTION_MS := by
  refine ⟨rfl, ?_⟩
  simp [applyCalibrationOffset, MAX_CORRECTION_MS]
  norm_num

/-- C8 (amended): a probe failure during a periodic sync cycle is caught at
cycle level: the cycle stops (the remaining samples of the burst are not
collected) and returns the current offset unchanged — non-fatal, no state
corruption. -/
theorem probe_failure_soft (probes : List ProbeResult) (currentOffset : ℚ)
    (hfail : Except.error () ∈ probes) :
    performDriftSyncE probes currentOffset = currentOffset := by
  have hcol : ∀ ps : List ProbeResult, Except.error () ∈ ps →
      collectProbes ps = Except.error () := by
    intro ps hps
    induction ps with
    | nil => cases hps
    | cons head tail ih =>
      cases head with
      | error e => simp [collectProbes]
      | ok p =>
        have htail : Except.error () ∈ tail := by
          rcases List.mem_cons.mp hps with h | h
          · cases h
          · exact h
        simp [collectProbes, ih htail, Except.map]
  simp [performDriftSyncE, hcol probes hfail]

/-- Witness for C8: a cycle whose first probe fails leaves offset 7 at 7. -/
theorem probe_failure_soft_witness :
    performDriftSyncE [Except.error (), Except.ok ⟨0, 85, 10⟩] 7 = 7 :=
  probe_failure_soft _ 7 (List.mem_cons_self _ _)

/-- Counterexample to C8 as stated: after the first probe fails, the good
remaining sample is NOT used — the cycle yields 0, while continuing with the
remaining sample (as the claim states) would yield 15. -/
theorem probe_failure_aborts_cex :
    performDriftSyncE [Except.error (), Except.ok ⟨0, 85, 10⟩] 0 = 0
    ∧ performDriftSync [⟨0, 85, 10⟩] 0 = 15 := by
  constructor
  · simp [performDriftSyncE, collectProbes]
  · norm_num [performDriftSync, sortByRtt, survivingSamples, Probe.rtt,
      Probe.sampleOffset, OUTLIER_THRESHOLD_MS, MAX_CORRECTION_MS,
      SMOOTHING_FACTOR, List.insertionSort]

/-- C2: the published event timestamp equals the spec's compensation
pseudocode on every input, and the hardware `cameraLatency` compensation and
the statistical `frameDuration/2` estimate are mutually exclusive: when a
hardware camera latency is present the result does not depend on
`frameDuration` at all. -/
theorem triggerGate_matches_spec (now offset : ℚ) (c : CalibStats)
    (source : GateSource) (cameraLatency processingLatency : Option ℚ)
    (cl fd2 : ℚ) :
    triggerGate now offset c source cameraLatency processingLatency =
      triggerGateSpec now offset c source cameraLatency processingLatency
    ∧ triggerGate now offset c source (some cl) processingLatency =
        triggerGate now offset { c with frameDuration := fd2 } source (some cl)
          processingLatency := by
  constructor
  · cases hc : c.isCalibrated <;> cases source <;>
      cases cameraLatency <;> cases processingLatency <;>
      simp [triggerGate, triggerGateSpec, hc] <;>
      (intro h; subst h; ring)
  · cases hc : c.isCalibrated <;> cases source <;> cases processingLatency <;>
      simp [triggerGate, hc]

/-- Over-approximation lemma: every trigger time emitted from state `last`
exceeds `last + 2000`. -/
theorem motionRun_mem_gt (armed : Bool) (sens : ℚ) :
    ∀ (trace : List (ℚ × ℚ)) (last f : ℚ),
      f ∈ motionRun armed sens last trace → last + 2000 < f := by
  intro trace
  induction trace with
  | nil =>
    intro last f hf
    simp [motionRun] at hf
  | cons hd tl ih =>
    intro last f hf
    obtain ⟨now, delta⟩ := hd
    by_cases hcond : armed = true ∧ sens < delta ∧ 2000 < now - last
    · have hstep : motionStep armed sens last now delta = (now, true) := by
        simp [motionStep, hcond]
      rw [motionRun] at hf
      rw [hstep] at hf
      simp only [List.mem_cons, if_true] at hf
      rcases hf with h | h
      · subst h
        linarith [hcond.2.2]
      · have := ih now f h
        linarith [hcond.2.2]
    · have hstep : motionStep armed sens last now delta = (last, false) := by
        simp [motionStep, hcond]
      rw [motionRun] at hf
      rw [hstep] at hf
      simp only [if_false] at hf
      exact ih last f hf

/-- Emitted triggers are pairwise separated by more than the 2000ms
cooldown. -/
theorem motionRun_chain (armed : Bool) (sens : ℚ) :
    ∀ (trace : List (ℚ × ℚ)) (last : ℚ),
      List.Chain' (fun a b => a + 2000 < b) (motionRun armed sens last trace) := by
  intro trace
  induction trace with
  | nil =>
    intro last
    simp [motionRun]
  | cons hd tl ih =>
    intro last
    obtain ⟨now, delta⟩ := hd
    by_cases hcond : armed = true ∧ sens < delta ∧ 2000 < now - last
    · have hstep : motionStep armed sens last now delta = (now, true) := by
        simp [motionStep, hcond]
      rw [motionRun, hstep]
      simp only [if_true]
      refine List.chain'_cons'.mpr ⟨?_, ih now⟩
      intro b hb
      exact motionRun_mem_gt armed sens tl now b (List.mem_of_mem_head? hb)
    · have hstep : motionStep armed sens last now delta = (last, false) := by
        simp [motionStep, hcond]
      rw [motionRun, hstep]
      simp only [if_false]
      exact ih last

/-- C7 (amended): a `handleMotion` call emits exactly when armed, the delta
exceeds the sensitivity threshold and strictly more than 2000ms elapsed since
the `lastTrigger` state, which starts at local time 0; consequently emitted
triggers are pairwise separated by more than 2000ms, and above-threshold
deltas at local times 0ms and 1500ms do not fire while one at 2100ms does. -/
theorem motionTrigger_cooldown (armed : Bool) (sens last now delta : ℚ)
    (trace : List (ℚ × ℚ)) :
    ((motionStep armed sens last now delta).2 = true ↔
      (armed = true ∧ sens < delta ∧ 2000 < now - last))
    ∧ List.Chain' (fun a b => a + 2000 < b) (motionRun armed sens last trace)
    ∧ motionRun true 25 0 [(0, 30), (1500, 30), (2100, 30)] = [2100] := by
  refine ⟨?_, motionRun_chain armed sens trace last, ?_⟩
  · unfold motionStep
    split_ifs with h <;> simp [h]
  · norm_num [motionRun, motionStep]

/-- Counterexample to C7 as stated: the claim's example predicts that the
above-threshold delta at local time 0 fires; the code initialises
`lastTrigger = 0` and requires `now - lastTrigger > 2000`, so neither the
delta at 0ms nor the one at 1500ms fires. -/
theorem motionTrigger_initial_lockout_cex :
    motionRun true 25 0 [(0, 30), (1500, 30)] = [] := by
  norm_num [motionRun, motionStep]

/-! ## Theorems: race windowing -/

theorem sliceSpec_nil (g : Nat) : sliceSpec g [] = [] := by
  rw [sliceSpec]

theorem sliceSpec_of_ge (g : Nat) (l : List REvent) (hg : 1 ≤ g)
    (hl : g ≤ l.length) (hne : l ≠ []) :
    sliceSpec g l = ⟨l.take g, true⟩ :: sliceSpec g (l.drop g) := by
  obtain ⟨e, rest, rfl⟩ := List.exists_cons_of_ne_nil hne
  rw [sliceSpec, dif_pos ⟨hg, hl⟩]

theorem sliceSpec_of_lt (g : Nat) (l : List REvent) (hl : l.length < g)
    (hne : l ≠ []) :
    sliceSpec g l = [⟨l, false⟩] := by
  obtain ⟨e, rest, rfl⟩ := List.exists_cons_of_ne_nil hne
  rw [sliceSpec, dif_neg]
  rintro ⟨-, h2⟩
  omega

theorem chunkGo_eq_sliceSpec (g : Nat) (hg : 1 ≤ g) :
    ∀ (l cur : List REvent), cur.length < g →
      chunkGo g cur l = sliceSpec g (cur ++ l) := by
  intro l
  induction l with
  | nil =>
    intro cur hcur
    simp only [chunkGo, List.append_nil]
    by_cases hc : cur = []
    · subst hc
      simp [sliceSpec_nil]
    · rw [if_neg (by simpa using hc), sliceSpec_of_lt g cur hcur hc]
  | cons e rest ih =>
    intro cur hcur
    simp only [chunkGo]
    by_cases hlen : (cur ++ [e]).length = g
    · rw [if_pos hlen]
      have hrest : chunkGo g [] rest = sliceSpec g rest := by
        simpa using ih [] (by simpa using hg)
      have heq : cur ++ e :: rest = (cur ++ [e]) ++ rest := by simp
      have hlen2 : ((cur ++ [e]) ++ rest).length = g + rest.length := by
        rw [List.length_append, hlen]
      rw [heq, sliceSpec_of_ge g ((cur ++ [e]) ++ rest) hg (by omega)
        (List.ne_nil_of_length_pos (by omega)),
        List.take_left' hlen, List.drop_left' hlen, hrest]
    · rw [if_neg hlen]
      have hlt : (cur ++ [e]).length < g := by
        simp only [List.length_append, List.length_cons, List.length_nil] at hlen ⊢
        omega
      rw [ih (cur ++ [e]) hlt]
      congr 1
      simp

theorem chunkGo_window_length (g : Nat) (hg : 1 ≤ g) :
    ∀ (l cur : List REvent), cur.length < g →
      ∀ r ∈ chunkGo g cur l,
        (r.complete = true → r.events.length = g)
        ∧ (r.complete = false → r.events.length < g) := by
  intro l
  induction l with
  | nil =>
    intro cur hcur r hr
    simp only [chunkGo] at hr
    by_cases hc : cur.isEmpty
    · simp [hc] at hr
    · rw [if_neg hc] at hr
      simp only [List.mem_singleton] at hr
      subst hr
      exact ⟨fun h => by simp at h, fun _ => hcur⟩
  | cons e rest ih =>
    intro cur hcur r hr
    simp only [chunkGo] at hr
    by_cases hlen : (cur ++ [e]).length = g
    · rw [if_pos hlen] at hr
      rcases List.mem_cons.mp hr with h | h
      · subst h
        exact ⟨fun _ => hlen, fun h => by simp at h⟩
      · exact ih [] (by simpa using hg) r h
    · rw [if_neg hlen] at hr
      have hlt : (cur ++ [e]).length < g := by
        simp only [List.length_append, List.length_cons, List.length_nil] at hlen ⊢
        omega
      exact ih (cur ++ [e]) hlt r hr

theorem chunkGo_dropLast_complete (g : Nat) :
    ∀ (l cur : List REvent), ∀ r ∈ (chunkGo g cur l).dropLast,
      r.complete = true := by
  intro l
  induction l with
  | nil =>
    intro cur r hr
    simp only [chunkGo] at hr
    by_cases hc : cur.isEmpty <;> simp [hc] at hr
  | cons e rest ih =>
    intro cur r hr
    simp only [chunkGo] at hr
    by_cases hlen : (cur ++ [e]).length = g
    · rw [if_pos hlen] at hr
      cases hrest : chunkGo g [] rest with
      | nil =>
        rw [hrest] at hr
        simp at hr
      | cons a t =>
        rw [hrest, List.dropLast_cons₂] at hr
        rcases List.mem_cons.mp hr with h | h
        · subst h
          rfl
        · exact ih [] r (by rw [hrest]; exact h)
    · rw [if_neg hlen] at hr
      exact ih (cur ++ [e]) r hr

theorem sortEvents_eq_of_perm (l l2 : List REvent) (hperm : List.Perm l l2)
    (hnd : (l.map REvent.timestamp).Nodup) :
    sortEvents l = sortEvents l2 := by
  have hp : List.Perm (sortEvents l) (sortEvents l2) :=
    (List.perm_insertionSort _ l).trans
      (hperm.trans (List.perm_insertionSort _ l2).symm)
  have hstrict : ∀ m : List REvent, List.Perm m l →
      List.Pairwise (fun a b : REvent => a.timestamp ≤ b.timestamp) m →
      List.Pairwise (fun a b : REvent => a.timestamp < b.timestamp) m := by
    intro m hm hs
    have hndm : (m.map REvent.timestamp).Nodup :=
      ((hm.map REvent.timestamp).nodup_iff).mpr hnd
    have hne : List.Pairwise (fun a b : REvent => a.timestamp ≠ b.timestamp) m :=
      List.pairwise_map.mp hndm
    exact (hs.and hne).imp fun h => lt_of_le_of_ne h.1 h.2
  have hs1 := hstrict (sortEvents l) (List.perm_insertionSort _ l)
    (List.sorted_insertionSort _ l)
  have hs2 := hstrict (sortEvents l2)
    ((List.perm_insertionSort _ l2).trans hperm.symm)
    (List.sorted_insertionSort _ l2)
  haveI : IsAntisymm REvent (fun a b : REvent => a.timestamp < b.timestamp) :=
    ⟨fun _ _ h1 h2 => absurd h2 (lt_asymm h1)⟩
  exact List.eq_of_perm_of_sorted hp hs1 hs2

/-- C3: the derived race windows are the events sorted by timestamp
ascending and sliced into consecutive chunks of size `gateConfig` with a
trailing shorter remainder as the one in-progress race; every window has
length at most `gateConfig`; only the last window can be incomplete; the
derivation is independent of arrival order (for distinct timestamps); and
for `gateConfig = 3` with 7 events at timestamps 1..7 the windows are
1-2-3 complete, 4-5-6 complete, 7 partial, chronologically. -/
theorem raceWindows_spec (g : Nat) (hg : 1 ≤ g) (evs evs2 : List REvent)
    (hperm : List.Perm evs evs2) (hnd : (evs.map REvent.timestamp).Nodup) :
    deriveRaces g evs = sliceSpec g (sortEvents evs)
    ∧ (∀ r ∈ deriveRaces g evs, r.events.length ≤ g)
    ∧ (∀ r ∈ (deriveRaces g evs).dropLast, r.complete = true)
    ∧ deriveRaces g evs = deriveRaces g evs2
    ∧ deriveRaces 3 exEvents =
        [⟨[⟨1, GateSource.motion⟩, ⟨2, GateSource.motion⟩,
            ⟨3, GateSource.manual⟩], true⟩,
         ⟨[⟨4, GateSource.manual⟩, ⟨5, GateSource.manual⟩,
            ⟨6, GateSource.manual⟩], true⟩,
         ⟨[⟨7, GateSource.manual⟩], false⟩] := by
  refine ⟨?_, ?_, ?_, ?_, ?_⟩
  · simpa using chunkGo_eq_sliceSpec g hg (sortEvents evs) [] (by simpa using hg)
  · intro r hr
    have h := chunkGo_window_length g hg (sortEvents evs) [] (by simpa using hg) r hr
    cases hc : r.complete
    · exact le_of_lt (h.2 hc)
    · exact le_of_eq (h.1 hc)
  · exact chunkGo_dropLast_complete g (sortEvents evs) []
  · unfold deriveRaces
    rw [sortEvents_eq_of_perm evs evs2 hperm hnd]
  · norm_num [deriveRaces, sortEvents, List.insertionSort, List.orderedInsert,
      chunkGo, exEvents]

/-- Witness for C3: the derivation on the example events equals the one on
their reversed arrival order. -/
theorem raceWindows_spec_witness :
    deriveRaces 3 exEvents = deriveRaces 3 exEvents.reverse :=
  (raceWindows_spec 3 (by omega) exEvents exEvents.reverse
    (List.reverse_perm exEvents).symm
    (by norm_num [exEvents])).2.2.2.1

/-! ## Theorems: asymmetric calibration -/

/-- C6: the asymmetric estimator computes the NTP offset and one-way
latencies from the 4-timestamp exchange; samples with negative latencies or
RTT above 500ms are discarded; with survivors it reports the RTT-median
survivor's offset and the survivor-averaged latencies; with none it returns
nothing, and the published latencies then come from the symmetric fallback
with upload = download = avgRTT / 2. -/
theorem asymmetric_latency_spec (ps : List AsymProbe) (fb : List AblyProbe)
    (hne : asymSurvivors ps ≠ []) :
    (∀ p : AsymProbe,
      p.clockOffset = ((p.t2 - p.t1) + (p.t3 - p.t4)) / 2
      ∧ p.uploadEst = (p.t2 - p.t1) - p.clockOffset
      ∧ p.downloadEst = (p.t4 - p.t3) + p.clockOffset)
    ∧ (∀ p ∈ ps, (p.uploadEst < 0 ∨ p.downloadEst < 0 ∨ 500 < p.rtt) →
        p ∉ asymSurvivors ps)
    ∧ (∃ r, measureAsymmetricLatency ps = some r
        ∧ r.clockOffset =
            ((sortAsymByRtt (asymSurvivors ps)).getD
              ((asymSurvivors ps).length / 2) ⟨0, 0, 0, 0, 0⟩).clockOffset
        ∧ ((sortAsymByRtt (asymSurvivors ps)).getD
              ((asymSurvivors ps).length / 2) ⟨0, 0, 0, 0, 0⟩) ∈ asymSurvivors ps
        ∧ r.uploadLatency =
            ((asymSurvivors ps).map AsymProbe.uploadEst).sum
              / ((asymSurvivors ps).length : ℚ)
        ∧ r.downloadLatency =
            ((asymSurvivors ps).map AsymProbe.downloadEst).sum
              / ((asymSurvivors ps).length : ℚ))
    ∧ (∀ ps2 : List AsymProbe,
        (measureAsymmetricLatency ps2 = none ↔ asymSurvivors ps2 = []))
    ∧ calibrationLatencies none fb =
        ((measureNetworkAbly fb).rtt / 2, (measureNetworkAbly fb).rtt / 2) := by
  refine ⟨fun p => ⟨rfl, rfl, rfl⟩, ?_, ?_, ?_, rfl⟩
  · intro p _ hbad hmem
    rw [asymSurvivors, List.mem_filter] at hmem
    have hval := hmem.2
    rw [validAsym] at hval
    simp only [Bool.and_eq_true, decide_eq_true_eq] at hval
    obtain ⟨⟨h1, h2⟩, h3⟩ := hval
    rcases hbad with h | h | h <;> linarith
  · have hB : (asymSurvivors ps).isEmpty = false := by
      simpa [List.isEmpty_eq_false] using hne
    have hmem2 : ((sortAsymByRtt (asymSurvivors ps)).getD
        ((asymSurvivors ps).length / 2) ⟨0, 0, 0, 0, 0⟩)
          ∈ asymSurvivors ps := by
      have hlen : (sortAsymByRtt (asymSurvivors ps)).length
          = (asymSurvivors ps).length :=
        (List.perm_insertionSort _ _).length_eq
      have hpos : 0 < (asymSurvivors ps).length :=
        List.length_pos.mpr hne
      have hidx : (asymSurvivors ps).length / 2
          < (sortAsymByRtt (asymSurvivors ps)).length := by
        rw [hlen]
        exact Nat.div_lt_self hpos (by norm_num)
      rw [List.getD_eq_getElem _ _ hidx]
      have hmem := List.getElem_mem hidx
      exact ((List.perm_insertionSort _ _).mem_iff).mp hmem
    have hcat : measureAsymmetricLatency ps = some
        { rtt := ((asymSurvivors ps).map AsymProbe.rtt).sum
            / ((asymSurvivors ps).length : ℚ)
          uploadLatency := ((asymSurvivors ps).map AsymProbe.uploadEst).sum
            / ((asymSurvivors ps).length : ℚ)
          downloadLatency := ((asymSurvivors ps).map AsymProbe.downloadEst).sum
            / ((asymSurvivors ps).length : ℚ)
          clockOffset := ((sortAsymByRtt (asymSurvivors ps)).getD
            ((asymSurvivors ps).length / 2) ⟨0, 0, 0, 0, 0⟩).clockOffset } := by
      simp only [measureAsymmetricLatency, hB, Bool.false_eq_true, if_false]
    exact ⟨_, hcat, rfl, hmem2, rfl, rfl⟩
  · intro ps2
    rw [measureAsymmetricLatency]
    by_cases h2 : (asymSurvivors ps2).isEmpty
    · simp only [h2, if_true]
      simpa [List.isEmpty_iff] using h2
    · simp only [h2, Bool.false_eq_true, if_false]
      constructor
      · intro hsome
        cases hsome
      · intro hnil
        rw [List.isEmpty_iff] at h2
        exact absurd hnil h2

/-- Witness for C6 at one valid and one discarded concrete exchange. -/
theorem asymmetric_latency_spec_witness :
    (∃ r, measureAsymmetricLatency [⟨0, 30, 35, 60, 600⟩, ⟨0, 30, 35, 60, 60⟩]
        = some r
      ∧ r.clockOffset =
          ((sortAsymByRtt
              (asymSurvivors [⟨0, 30, 35, 60, 600⟩, ⟨0, 30, 35, 60, 60⟩])).getD
            ((asymSurvivors [⟨0, 30, 35, 60, 600⟩, ⟨0, 30, 35, 60, 60⟩]).length / 2)
            ⟨0, 0, 0, 0, 0⟩).clockOffset
      ∧ ((sortAsymByRtt
              (asymSurvivors [⟨0, 30, 35, 60, 600⟩, ⟨0, 30, 35, 60, 60⟩])).getD
            ((asymSurvivors [⟨0, 30, 35, 60, 600⟩, ⟨0, 30, 35, 60, 60⟩]).length / 2)
            ⟨0, 0, 0, 0, 0⟩)
          ∈ asymSurvivors [⟨0, 30, 35, 60, 600⟩, ⟨0, 30, 35, 60, 60⟩]
      ∧ r.uploadLatency =
          ((asymSurvivors [⟨0, 30, 35, 60, 600⟩, ⟨0, 30, 35, 60, 60⟩]).map
              AsymProbe.uploadEst).sum
            / ((asymSurvivors [⟨0, 30, 35, 60, 600⟩, ⟨0, 30, 35, 60, 60⟩]).length : ℚ)
      ∧ r.downloadLatency =
          ((asymSurvivors [⟨0, 30, 35, 60, 600⟩, ⟨0, 30, 35, 60, 60⟩]).map
              AsymProbe.downloadEst).sum
            / ((asymSurvivors [⟨0, 30, 35, 60, 600⟩, ⟨0, 30, 35, 60, 60⟩]).length : ℚ))
    ∧ calibrationLatencies none [⟨0, 100, 40, 50⟩] =
        ((measureNetworkAbly [⟨0, 100, 40, 50⟩]).rtt / 2,
         (measureNetworkAbly [⟨0, 100, 40, 50⟩]).rtt / 2) := by
  have h := asymmetric_latency_spec [⟨0, 30, 35, 60, 600⟩, ⟨0, 30, 35, 60, 60⟩]
    [⟨0, 100, 40, 50⟩]
    (by
      norm_num [asymSurvivors, validAsym, AsymProbe.uploadEst,
        AsymProbe.downloadEst, AsymProbe.clockOffset])
  exact ⟨h.2.2.1, h.2.2.2.2⟩

/-! ## Theorems: per-segment velocity and acceleration -/

/-- C9: with distances configured, segment `i ≥ 1` reports
`velocity = (distance_i - distance_(i-1)) / timeDelta_i` and
`acceleration = (velocity_i - velocity_(i-1)) / timeDelta_i` with
`velocity_0 = 0`; a missing distance makes both unavailable; and the spec's
10/20/30m example gives 10, ~11.11 and 10 m/s with second-segment
acceleration ~1.23 m/s². -/
theorem segment_metrics_spec (dc : List ℚ) (evs : List REvent) (i : Nat)
    (di dim1 : ℚ) (hi : 1 ≤ i)
    (hcur : getDistance dc i = some di)
    (hprev : getDistance dc (i - 1) = some dim1)
    (hdt : 0 < timeDelta evs i) :
    segmentVelocity dc evs i = some ((di - dim1) / timeDelta evs i)
    ∧ (i = 1 → segmentAcceleration dc evs i =
        some (((di - dim1) / timeDelta evs i - 0) / timeDelta evs i))
    ∧ (∀ dim2 : ℚ, 2 ≤ i → getDistance dc (i - 2) = some dim2 →
        0 < timeDelta evs (i - 1) →
        segmentAcceleration dc evs i =
          some (((di - dim1) / timeDelta evs i
            - (dim1 - dim2) / timeDelta evs (i - 1)) / timeDelta evs i))
    ∧ (∀ j : Nat, 1 ≤ j → dc[j - 1]? = none →
        segmentVelocity dc evs j = none ∧ segmentAcceleration dc evs j = none)
    ∧ segmentVelocity [10, 20, 30] raceEx 1 = some 10
    ∧ segmentVelocity [10, 20, 30] raceEx 3 = some 10
    ∧ |(segmentVelocity [10, 20, 30] raceEx 2).getD 0 - 1111 / 100| ≤ 1 / 200
    ∧ |(segmentAcceleration [10, 20, 30] raceEx 2).getD 0 - 123 / 100| ≤ 1 / 200 := by
  have hvel : segmentVelocity dc evs i = some ((di - dim1) / timeDelta evs i) := by
    rw [segmentVelocity, if_neg (by omega), hcur, hprev]
    simp only [if_pos hdt]
  refine ⟨hvel, ?_, ?_, ?_, ?_, ?_, ?_, ?_⟩
  · intro h1
    subst h1
    rw [segmentAcceleration, hvel, prevSegmentVelocity]
    simp
  · intro dim2 h2 hdim2 hdt1
    rw [segmentAcceleration, hvel, prevSegmentVelocity, if_pos (by omega),
      if_pos hdt1, hprev, hdim2]
    simp [Option.getD]
  · intro j hj hnone
    have hgd : getDistance dc j = none := by
      rw [getDistance, if_neg (by omega), hnone]
    have hv : segmentVelocity dc evs j = none := by
      rw [segmentVelocity, if_neg (by omega), hgd]
    exact ⟨hv, by rw [segmentAcceleration, hv]⟩
  · norm_num [segmentVelocity, getDistance, timeDelta, evTimestamp, raceEx]
  · norm_num [segmentVelocity, getDistance, timeDelta, evTimestamp, raceEx]
  · have : segmentVelocity [10, 20, 30] raceEx 2 = some (100 / 9) := by
      norm_num [segmentVelocity, getDistance, timeDelta, evTimestamp, raceEx]
    rw [this]
    rw [Option.getD_some, abs_le]
    constructor <;> norm_num
  · have : segmentAcceleration [10, 20, 30] raceEx 2 = some (100 / 81) := by
      norm_num [segmentAcceleration, segmentVelocity, prevSegmentVelocity,
        getDistance, timeDelta, evTimestamp, raceEx]
    rw [this]
    rw [Option.getD_some, abs_le]
    constructor <;> norm_num

/-- Witness for C9 at the first segment of the spec's example. -/
theorem segment_metrics_spec_witness :
    segmentVelocity [10, 20, 30] raceEx 1 =
      some ((10 - 0) / timeDelta raceEx 1) :=
  (segment_metrics_spec [10, 20, 30] raceEx 1 10 0 (by omega)
    (by norm_num [getDistance]) (by norm_num [getDistance])
    (by norm_num [timeDelta, evTimestamp, raceEx])).1

/-- C10: a configured per-gate distance equal to 0 behaves like a missing
one — the truthiness-based lookup returns null, so a segment whose own or
preceding configured distance is 0 (or absent) reports velocity and
acceleration as unavailable. -/
theorem zero_distance_unavailable (dc : List ℚ) (evs : List REvent) (i : Nat)
    (hi : 1 ≤ i) :
    ((dc[i - 1]? = some 0 ∨ dc[i - 1]? = none) →
      segmentVelocity dc evs i = none ∧ segmentAcceleration dc evs i = none)
    ∧ (2 ≤ i → (dc[i - 2]? = some 0 ∨ dc[i - 2]? = none) →
      segmentVelocity dc evs i = none ∧ segmentAcceleration dc evs i = none) := by
  have hnull : ∀ j : Nat, 1 ≤ j → (dc[j - 1]? = some 0 ∨ dc[j - 1]? = none) →
      getDistance dc j = none := by
    intro j hj hcase
    rw [getDistance, if_neg (by omega)]
    rcases hcase with h | h <;> rw [h] <;> simp
  constructor
  · intro hcase
    have hv : segmentVelocity dc evs i = none := by
      rw [segmentVelocity, if_neg (by omega), hnull i hi hcase]
    exact ⟨hv, by rw [segmentAcceleration, hv]⟩
  · intro h2 hcase
    have hidx : i - 1 - 1 = i - 2 := by omega
    have hprev : getDistance dc (i - 1) = none := by
      refine hnull (i - 1) (by omega) ?_
      rw [hidx]
      exact hcase
    have hv : segmentVelocity dc evs i = none := by
      rw [segmentVelocity, if_neg (by omega), hprev]
      cases getDistance dc i <;> rfl
    exact ⟨hv, by rw [segmentAcceleration, hv]⟩

/-- Witness for C10: configured distances [20, 0, 30]: segment 2 (own
distance 0) and segment 3 (preceding distance 0) are unavailable. -/
theorem zero_distance_unavailable_witness :
    (segmentVelocity [20, 0, 30] raceEx 2 = none
      ∧ segmentAcceleration [20, 0, 30] raceEx 2 = none)
    ∧ (segmentVelocity [20, 0, 30] raceEx 3 = none
      ∧ segmentAcceleration [20, 0, 30] raceEx 3 = none) :=
  ⟨(zero_distance_unavailable [20, 0, 30] raceEx 2 (by omega)).1
      (Or.inl (by norm_num)),
   (zero_distance_unavailable [20, 0, 30] raceEx 3 (by omega)).2 (by omega)
      (Or.inl (by norm_num))⟩

end SprintGates
